import Mathlib

/-! Shallow embedding of the data-preparation utilities in
src/jsonl_data_utils.py and of the HTTP stub described for src/backend.py.
Byte/character strings are modelled as `List Char`; the filesystem as a
partial map from paths to file contents; Python dicts as association
lists in insertion order (with later pairs overwriting earlier ones when a
dict is built from a pair sequence). The json.loads / json.load library
calls are modelled by passing the parsed value (a list of record pairs,
or the w2id pair list) in place of the raw file bytes. -/

/-- Python whitespace characters, as recognised by bytes.strip() and
bytes.split() with no argument. -/
def isPySpace (c : Char) : Bool :=
  c == ' ' || c == '\t' || c == '\n' || c == '\r' || c == '\x0B' || c == '\x0C'

/-- Removal of trailing whitespace (the right half of Python strip()). -/
def rstripPy (s : List Char) : List Char := (s.reverse.dropWhile isPySpace).reverse

/-- Python strip(): remove leading and trailing whitespace. -/
def pyStrip (s : List Char) : List Char := (rstripPy s).dropWhile isPySpace

/-- Python split() with no separator: split on runs of whitespace,
producing no empty tokens. -/
def pySplit : List Char → List (List Char)
  | [] => []
  | [c] => if isPySpace c then [] else [[c]]
  | c :: d :: rest =>
    if isPySpace c then pySplit (d :: rest)
    else if isPySpace d then [c] :: pySplit rest
    else
      match pySplit (d :: rest) with
      | [] => [[c]]
      | w :: ws => (c :: w) :: ws

/-- Lines of a text without their newline terminators; a trailing newline
produces no extra empty line. -/
def textLines : List Char → List (List Char)
  | [] => []
  | c :: rest =>
    if c = '\n' then [] :: textLines rest
    else
      match textLines rest with
      | [] => [[c]]
      | l :: ls => (c :: l) :: ls

/-- Lines of a file as Python file iteration and readlines() yield them:
newline terminators kept, a final unterminated chunk still yielded. -/
def pyFileLines : List Char → List (List Char)
  | [] => []
  | c :: rest =>
    if c = '\n' then ['\n'] :: pyFileLines rest
    else
      match pyFileLines rest with
      | [] => [[c]]
      | l :: ls => (c :: l) :: ls

/-- Concatenation of the given strings, each followed by a newline: the
content written by a loop of write(x + newline) calls. -/
def unlinesPy (ls : List (List Char)) : List Char := (ls.map (· ++ ['\n'])).flatten

/-- The filesystem: a partial map from paths to file contents. -/
abbrev FS : Type := List Char → Option (List Char)

/-- Opening a file in write mode and writing the whole content. -/
def fsWrite (fs : FS) (path content : List Char) : FS :=
  fun q => if q = path then some content else fs q

/-- Lookup in a Python dict built from a sequence of key/value pairs:
later pairs overwrite earlier ones. -/
def dictOfPairs : List (List Char × Nat) → List Char → Option Nat
  | [], _ => none
  | (k, v) :: rest, t =>
    match dictOfPairs rest t with
    | some w => some w
    | none => if t = k then some v else none

/-- Insertion of a key/value pair into a value-sorted pair list, before the
first pair of greater-or-equal value; folding it from the right gives a
stable sort by value. -/
def insortPair (p : List Char × Nat) : List (List Char × Nat) → List (List Char × Nat)
  | [] => [p]
  | q :: rest => if p.2 ≤ q.2 then p :: q :: rest else q :: insortPair p rest

/-- Stable sort of the w2id pairs by ascending id value, modelling
Python sorted(vocab, key=vocab.get) on the keys of the dict. -/
def sortPairs : List (List Char × Nat) → List (List Char × Nat)
  | [] => []
  | p :: rest => insortPair p (sortPairs rest)

/-- The list _START_VOCAB of the four reserved symbols. -/
def START_VOCAB : List (List Char) :=
  ["_PAD".toList, "_GO".toList, "_EOS".toList, "_UNK".toList]

def PAD_ID : Nat := 0

def GO_ID : Nat := 1

def EOS_ID : Nat := 2

def UNK_ID : Nat := 3

/-- os.path.basename: the part after the last path separator. -/
def basename (s : List Char) : List Char := (s.reverse.takeWhile (· ≠ '/')).reverse

/-- The root part of os.path.splitext on a basename: everything before the
last dot, where leading dots do not begin an extension. -/
def splitextRoot (name : List Char) : List Char :=
  let lead := name.takeWhile (· = '.')
  let rest := name.drop lead.length
  if '.' ∈ rest then lead ++ ((rest.reverse.dropWhile (· ≠ '.')).tail).reverse
  else name

/-- os.path.join of a directory and a name. -/
def osJoin (d n : List Char) : List Char :=
  if n.head? = some '/' then n
  else if d = [] then n
  else if d.getLast? = some '/' then d ++ n
  else d ++ '/' :: n

/-- Python replace removing every newline character from a string. -/
def removeNl (s : List Char) : List Char := s.filter (· ≠ '\n')

/-- The path stem set_path computed by get_qa_set. -/
def qaSetPath (directory jsonl_file : List Char) : List Char :=
  osJoin directory (splitextRoot (basename jsonl_file))

/-- The src output path of get_qa_set. -/
def qaSrcPath (d jf : List Char) : List Char := qaSetPath d jf ++ ".src".toList

/-- The targ output path of get_qa_set. -/
def qaTargPath (d jf : List Char) : List Char := qaSetPath d jf ++ ".targ".toList

/-- get_qa_set from src/jsonl_data_utils.py. The jsonl input file is given
in parsed form (json.loads of each line being an external library call): a
list of (q, a) record pairs in line order. Returns the updated filesystem
and the returned path stem. -/
def get_qa_set (fs : FS) (directory jsonl_file : List Char)
    (records : List (List Char × List Char)) : FS × List Char :=
  let set_path := qaSetPath directory jsonl_file
  let src_path := qaSrcPath directory jsonl_file
  let targ_path := qaTargPath directory jsonl_file
  if (fs src_path).isSome && (fs targ_path).isSome then (fs, set_path)
  else
    (fsWrite (fsWrite fs src_path (unlinesPy (records.map fun r => removeNl r.1)))
      targ_path (unlinesPy (records.map fun r => removeNl r.2)), set_path)

/-- The token list create_vocabulary writes: the reserved symbols followed
by the keys of w2id sorted by ascending id value. -/
def vocabList (w2id : List (List Char × Nat)) : List (List Char) :=
  START_VOCAB ++ (sortPairs w2id).map Prod.fst

/-- create_vocabulary from src/jsonl_data_utils.py. The json vocab file is
given in parsed form: its w2id field as the list of token/id pairs of the
dict, in insertion order with distinct keys. Writes one token per line to
vocabulary_path unless that file already exists. -/
def create_vocabulary (fs : FS) (vocabulary_path : List Char)
    (w2id : List (List Char × Nat)) : FS :=
  if (fs vocabulary_path).isSome then fs
  else fsWrite fs vocabulary_path (unlinesPy (vocabList w2id))

/-- The pair initialize_vocabulary builds from the vocabulary file content:
the token-to-index dict and the list of stripped lines. -/
def vocabOfContent (content : List Char) :
    (List Char → Option Nat) × List (List Char) :=
  let rev_vocab := (pyFileLines content).map pyStrip
  (fun t => dictOfPairs (rev_vocab.enum.map Prod.swap) t, rev_vocab)

/-- initialize_vocabulary from src/jsonl_data_utils.py: raises when the
vocabulary file is absent, else returns the dict and the ordered list. -/
def initialize_vocabulary (fs : FS) (vocabulary_path : List Char) :
    Except Unit ((List Char → Option Nat) × List (List Char)) :=
  match fs vocabulary_path with
  | some content => .ok (vocabOfContent content)
  | none => .error ()

/-- sentence_to_token_ids from src/jsonl_data_utils.py. -/
def sentence_to_token_ids (sentence : List Char)
    (vocabulary : List Char → Option Nat) : List Nat :=
  (pySplit (pyStrip sentence)).map fun w => (vocabulary w).getD UNK_ID

/-- Decimal digit character. -/
def digitCh (d : Nat) : Char :=
  if d = 0 then '0' else if d = 1 then '1' else if d = 2 then '2'
  else if d = 3 then '3' else if d = 4 then '4' else if d = 5 then '5'
  else if d = 6 then '6' else if d = 7 then '7' else if d = 8 then '8'
  else if d = 9 then '9' else '*'

/-- Fuel-driven most-significant-first decimal digit rendering. -/
def natDigitsAux : Nat → Nat → List Char
  | 0, _ => []
  | _ + 1, 0 => []
  | fuel + 1, n + 1 => natDigitsAux fuel ((n + 1) / 10) ++ [digitCh ((n + 1) % 10)]

/-- Python str() of a non-negative integer: its decimal digits. -/
def natToChars (n : Nat) : List Char :=
  if n = 0 then ['0'] else natDigitsAux n n

/-- Python " ".join of a list of strings. -/
def joinWithSpace : List (List Char) → List Char
  | [] => []
  | [s] => s
  | s :: t :: rest => s ++ ' ' :: joinWithSpace (t :: rest)

/-- data_to_token_ids from src/jsonl_data_utils.py: skip when the target
exists, else load the vocabulary (raising when it is absent), read the data
file (raising when absent) line by line, and write one line of
space-separated decimal ids per input line. -/
def data_to_token_ids (fs : FS) (data_path target_path vocabulary_path : List Char) :
    Except Unit FS :=
  if (fs target_path).isSome then .ok fs
  else
    match initialize_vocabulary fs vocabulary_path with
    | .error e => .error e
    | .ok (vocab, _) =>
      match fs data_path with
      | none => .error ()
      | some data =>
        .ok (fsWrite fs target_path
          (unlinesPy ((pyFileLines data).map fun line =>
            joinWithSpace ((sentence_to_token_ids line vocab).map natToChars))))

/-- Modelled from the spec: the stub variant of the /talk handler, which
the spec describes but which is not present under src/ (src/backend.py
holds the model-backed variant); it appends the fixed suffix text
" from server" to the input. The default text "no input :O" substituted
for an absent userInput parameter is as in src/backend.py. -/
def stub_talk (userInput : Option (List Char)) : List Char :=
  (userInput.getD "no input :O".toList) ++ " from server".toList

/-- The stub /talk route response, jsonify(result=text) modelled as the
key/value pair of the one-field JSON object. -/
def stub_talk_response (userInput : Option (List Char)) : List Char × List Char :=
  ("result".toList, stub_talk userInput)

/-! Helper lemmas about the string primitives. -/

lemma pyStrip_append_space (s : List Char) (c : Char) (h : isPySpace c) :
    pyStrip (s ++ [c]) = pyStrip s := by
  unfold pyStrip rstripPy
  simp [List.reverse_append, List.dropWhile_cons, h]

lemma pyStrip_all_space (s : List Char) (h : ∀ c ∈ s, isPySpace c) :
    pyStrip s = [] := by
  unfold pyStrip rstripPy
  have : s.reverse.dropWhile isPySpace = [] := by
    rw [List.dropWhile_eq_nil_iff]
    intro c hc
    exact h c (List.mem_reverse.mp hc)
  simp [this]

lemma sentence_ids_append_newline (l : List Char) (v : List Char → Option Nat) :
    sentence_to_token_ids (l ++ ['\n']) v = sentence_to_token_ids l v := by
  unfold sentence_to_token_ids
  rw [pyStrip_append_space l '\n' (by decide)]

lemma sentence_ids_all_space (s : List Char) (v : List Char → Option Nat)
    (h : ∀ c ∈ s, isPySpace c) : sentence_to_token_ids s v = [] := by
  unfold sentence_to_token_ids
  rw [pyStrip_all_space s h]
  rfl

/-! Helper lemmas about line splitting. -/

lemma textLines_append_newline (l t : List Char) (h : '\n' ∉ l) :
    textLines (l ++ '\n' :: t) = l :: textLines t := by
  induction l with
  | nil => simp [textLines]
  | cons c l ih =>
    have hc : c ≠ '\n' := fun hc => h (hc ▸ List.mem_cons_self c l)
    have hl : '\n' ∉ l := fun hl => h (List.mem_cons_of_mem c hl)
    rw [List.cons_append]
    simp only [textLines, hc, if_false]
    rw [ih hl]

lemma textLines_unlinesPy (ls : List (List Char)) (h : ∀ l ∈ ls, '\n' ∉ l) :
    textLines (unlinesPy ls) = ls := by
  induction ls with
  | nil => rfl
  | cons l ls ih =>
    have : unlinesPy (l :: ls) = l ++ '\n' :: unlinesPy ls := by
      simp [unlinesPy]
    rw [this, textLines_append_newline l _ (h l (List.mem_cons_self l ls)),
      ih fun x hx => h x (List.mem_cons_of_mem l hx)]

lemma pyFileLines_append_newline (l t : List Char) (h : '\n' ∉ l) :
    pyFileLines (l ++ '\n' :: t) = (l ++ ['\n']) :: pyFileLines t := by
  induction l with
  | nil => simp [pyFileLines]
  | cons c l ih =>
    have hc : c ≠ '\n' := fun hc => h (hc ▸ List.mem_cons_self c l)
    have hl : '\n' ∉ l := fun hl => h (List.mem_cons_of_mem c hl)
    rw [List.cons_append]
    simp only [pyFileLines, hc, if_false]
    rw [ih hl]
    exact rfl

lemma pyFileLines_unlinesPy (ls : List (List Char)) (h : ∀ l ∈ ls, '\n' ∉ l) :
    pyFileLines (unlinesPy ls) = ls.map (· ++ ['\n']) := by
  induction ls with
  | nil => rfl
  | cons l ls ih =>
    have : unlinesPy (l :: ls) = l ++ '\n' :: unlinesPy ls := by
      simp [unlinesPy]
    rw [this, pyFileLines_append_newline l _ (h l (List.mem_cons_self l ls)),
      ih fun x hx => h x (List.mem_cons_of_mem l hx)]
    rfl

lemma pyFileLines_rel_textLines (s : List Char) :
    List.Forall₂ (fun a b => a = b ++ ['\n'] ∨ a = b) (pyFileLines s) (textLines s) := by
  induction s with
  | nil => exact List.Forall₂.nil
  | cons c rest ih =>
    by_cases hc : c = '\n'
    · subst hc
      simp only [pyFileLines, textLines, if_pos rfl]
      exact List.Forall₂.cons (Or.inl rfl) ih
    · simp only [pyFileLines, textLines, hc, if_false]
      generalize hA : pyFileLines rest = A at ih ⊢
      generalize hB : textLines rest = B at ih ⊢
      cases ih with
      | nil => exact List.Forall₂.cons (Or.inr rfl) List.Forall₂.nil
      | cons hab htail =>
        rcases hab with hab | hab <;>
          exact List.Forall₂.cons (by simp [hab]) htail

lemma map_congr_forall2 {α β γ : Type} {R : α → β → Prop} {f : α → γ} {g : β → γ}
    {l₁ : List α} {l₂ : List β} (h : List.Forall₂ R l₁ l₂)
    (hfg : ∀ a b, R a b → f a = g b) : l₁.map f = l₂.map g := by
  induction h with
  | nil => rfl
  | cons hab _ ih => simp [hfg _ _ hab, ih]

lemma map_ids_fileLines (s : List Char) (v : List Char → Option Nat) :
    (pyFileLines s).map (fun l => sentence_to_token_ids l v) =
      (textLines s).map (fun l => sentence_to_token_ids l v) := by
  refine map_congr_forall2 (pyFileLines_rel_textLines s) ?_
  intro a b hab
  rcases hab with hab | hab
  · rw [hab, sentence_ids_append_newline]
  · rw [hab]

lemma length_pyFileLines_eq (s : List Char) :
    (pyFileLines s).length = (textLines s).length :=
  (pyFileLines_rel_textLines s).length_eq

/-! Helper lemmas about decimal rendering. -/

lemma digitCh_ne_newline (d : Nat) : digitCh d ≠ '\n' := by
  unfold digitCh
  split_ifs <;> decide

lemma natDigitsAux_no_newline (f n : Nat) : '\n' ∉ natDigitsAux f n := by
  induction f generalizing n with
  | zero => simp [natDigitsAux]
  | succ f ih =>
    cases n with
    | zero => simp [natDigitsAux]
    | succ n =>
      simp only [natDigitsAux, List.mem_append, List.mem_singleton]
      rintro (h | h)
      · exact ih _ h
      · exact digitCh_ne_newline _ h.symm

lemma natToChars_no_newline (n : Nat) : '\n' ∉ natToChars n := by
  unfold natToChars
  split
  · decide
  · exact natDigitsAux_no_newline n n

lemma joinWithSpace_no_newline (ls : List (List Char)) (h : ∀ l ∈ ls, '\n' ∉ l) :
    '\n' ∉ joinWithSpace ls := by
  induction ls with
  | nil => simp [joinWithSpace]
  | cons s rest ih =>
    cases rest with
    | nil => simpa [joinWithSpace] using h s (List.mem_cons_self s [])
    | cons t r =>
      simp only [joinWithSpace, List.mem_append, List.mem_cons]
      rintro (hs | hs | hs)
      · exact h s (List.mem_cons_self s _) hs
      · exact absurd hs (by decide)
      · exact ih (fun x hx => h x (List.mem_cons_of_mem s hx)) hs

lemma rendered_line_no_newline (ids : List Nat) :
    '\n' ∉ joinWithSpace (ids.map natToChars) := by
  refine joinWithSpace_no_newline _ ?_
  intro l hl
  rcases List.mem_map.mp hl with ⟨n, _, rfl⟩
  exact natToChars_no_newline n

/-! Helper lemmas about the dict built from enumerated pairs. -/

lemma dictOfPairs_append_of_some (ps qs : List (List Char × Nat)) (t : List Char)
    (w : Nat) (h : dictOfPairs qs t = some w) :
    dictOfPairs (ps ++ qs) t = some w := by
  induction ps with
  | nil => simpa using h
  | cons p ps ih =>
    obtain ⟨k, v⟩ := p
    rw [List.cons_append]
    simp only [dictOfPairs]
    rw [ih]

lemma dictOfPairs_enumFrom_not_mem (L : List (List Char)) (n : Nat) (k : List Char)
    (h : k ∉ L) : dictOfPairs ((L.enumFrom n).map Prod.swap) k = none := by
  induction L generalizing n with
  | nil => rfl
  | cons x L ih =>
    have hx : k ≠ x := fun hk => h (hk ▸ List.mem_cons_self x L)
    have hL : k ∉ L := fun hk => h (List.mem_cons_of_mem x hk)
    simp only [List.enumFrom, List.map_cons, dictOfPairs, ih (n + 1) hL, Prod.swap_prod_mk,
      hx, if_false]

lemma dictOfPairs_enumFrom_get (L : List (List Char)) (n i : Nat) (hNd : L.Nodup)
    (hi : i < L.length) :
    dictOfPairs ((L.enumFrom n).map Prod.swap) (L.get ⟨i, hi⟩) = some (n + i) := by
  induction L generalizing n i with
  | nil => exact absurd hi (by simp)
  | cons x L ih =>
    rcases List.nodup_cons.mp hNd with ⟨hx, hL⟩
    cases i with
    | zero =>
      simp only [List.get, List.enumFrom, List.map_cons, dictOfPairs, Prod.swap_prod_mk]
      rw [dictOfPairs_enumFrom_not_mem L (n + 1) x hx]
      simp
    | succ i =>
      have hi' : i < L.length := by simpa using hi
      simp only [List.get, List.enumFrom, List.map_cons, dictOfPairs, Prod.swap_prod_mk]
      rw [ih (n + 1) i hL hi']
      have : n + 1 + i = n + (i + 1) := by omega
      simp [this]

/-! Helper lemmas about the stable insertion sort by id value. -/

lemma insortPair_perm (p : List Char × Nat) (l : List (List Char × Nat)) :
    List.Perm (insortPair p l) (p :: l) := by
  induction l with
  | nil => exact List.Perm.refl _
  | cons q rest ih =>
    by_cases hpq : p.2 ≤ q.2
    · simp [insortPair, hpq]
    · simp only [insortPair, hpq, if_false]
      exact (ih.cons q).trans (List.Perm.swap p q rest)

lemma sortPairs_perm (l : List (List Char × Nat)) : List.Perm (sortPairs l) l := by
  induction l with
  | nil => exact List.Perm.refl _
  | cons p rest ih =>
    exact (insortPair_perm p (sortPairs rest)).trans (ih.cons p)

lemma insortPair_sorted (p : List Char × Nat) (l : List (List Char × Nat))
    (h : l.Pairwise (fun a b => a.2 ≤ b.2)) :
    (insortPair p l).Pairwise (fun a b => a.2 ≤ b.2) := by
  induction l with
  | nil => simp [insortPair]
  | cons q rest ih =>
    rcases List.pairwise_cons.mp h with ⟨hq, hrest⟩
    by_cases hpq : p.2 ≤ q.2
    · simp only [insortPair, hpq, if_true]
      refine List.pairwise_cons.mpr ⟨?_, h⟩
      intro x hx
      rcases List.mem_cons.mp hx with rfl | hx
      · exact hpq
      · exact le_trans hpq (hq x hx)
    · simp only [insortPair, hpq, if_false]
      refine List.pairwise_cons.mpr ⟨?_, ih hrest⟩
      intro x hx
      rcases List.mem_cons.mp ((insortPair_perm p rest).mem_iff.mp hx) with rfl | hx
      · omega
      · exact hq x hx

lemma sortPairs_sorted (l : List (List Char × Nat)) :
    (sortPairs l).Pairwise (fun a b => a.2 ≤ b.2) := by
  induction l with
  | nil => simp [sortPairs]
  | cons p rest ih => exact insortPair_sorted p (sortPairs rest) ih

/-! Helper lemmas about filesystem writes and the output paths. -/

lemma fsWrite_self (fs : FS) (p c : List Char) : fsWrite fs p c p = some c := by
  simp [fsWrite]

lemma fsWrite_other (fs : FS) (p c q : List Char) (h : q ≠ p) :
    fsWrite fs p c q = fs q := by
  simp [fsWrite, h]

lemma qaSrc_ne_qaTarg (d jf : List Char) : qaSrcPath d jf ≠ qaTargPath d jf := by
  intro h
  have := congrArg List.length h
  simp only [qaSrcPath, qaTargPath, List.length_append] at this
  have h4 : ".src".toList.length = 4 := rfl
  have h5 : ".targ".toList.length = 5 := rfl
  omega

/-! Core lemmas for the vocabulary round trip. -/

lemma sortPairs_snd_range (w2id : List (List Char × Nat))
    (hids : List.Perm (w2id.map Prod.snd) (List.range w2id.length)) :
    (sortPairs w2id).map Prod.snd = List.range w2id.length := by
  have hperm : List.Perm ((sortPairs w2id).map Prod.snd) (List.range w2id.length) :=
    ((sortPairs_perm w2id).map Prod.snd).trans hids
  have hs : List.Sorted (· ≤ ·) ((sortPairs w2id).map Prod.snd) :=
    List.pairwise_map.mpr (sortPairs_sorted w2id)
  exact List.eq_of_perm_of_sorted hperm hs (List.sorted_le_range _)

lemma roundtrip_dict (w2id : List (List Char × Nat))
    (hk : (w2id.map Prod.fst).Nodup)
    (hids : List.Perm (w2id.map Prod.snd) (List.range w2id.length))
    (k : List Char) (v : Nat) (hmem : (k, v) ∈ w2id) :
    dictOfPairs ((vocabList w2id).enum.map Prod.swap) k = some (v + 4) := by
  have hsnd := sortPairs_snd_range w2id hids
  have hlen : (sortPairs w2id).length = w2id.length := (sortPairs_perm w2id).length_eq
  have hmem' : (k, v) ∈ sortPairs w2id := (sortPairs_perm w2id).mem_iff.mpr hmem
  obtain ⟨⟨j, hj⟩, hget⟩ := List.mem_iff_get.mp hmem'
  rw [List.get_eq_getElem] at hget
  have hj2 : j < ((sortPairs w2id).map Prod.snd).length := by
    simpa using hj
  have hv : ((sortPairs w2id).map Prod.snd)[j] = v := by
    simp [List.getElem_map, hget]
  have hvj : v = j := by
    have h2 : ((sortPairs w2id).map Prod.snd)[j]? = (List.range w2id.length)[j]? := by
      rw [hsnd]
    rw [List.getElem?_eq_getElem hj2, hv] at h2
    have hjn : j < w2id.length := hlen ▸ hj
    rw [List.getElem?_range hjn] at h2
    exact Option.some.inj h2
  have hjL : j < ((sortPairs w2id).map Prod.fst).length := by simpa using hj
  have hkL : ((sortPairs w2id).map Prod.fst)[j] = k := by
    simp [List.getElem_map, hget]
  have hNd : ((sortPairs w2id).map Prod.fst).Nodup :=
    (((sortPairs_perm w2id).map Prod.fst).nodup_iff).mpr hk
  have hdict :
      dictOfPairs ((((sortPairs w2id).map Prod.fst).enumFrom 4).map Prod.swap) k
        = some (4 + j) := by
    have := dictOfPairs_enumFrom_get ((sortPairs w2id).map Prod.fst) 4 j hNd hjL
    rwa [show ((sortPairs w2id).map Prod.fst).get ⟨j, hjL⟩ =
        ((sortPairs w2id).map Prod.fst)[j] from rfl, hkL] at this
  have henum : (vocabList w2id).enum =
      START_VOCAB.enum ++ (((sortPairs w2id).map Prod.fst).enumFrom START_VOCAB.length) :=
    List.enum_append _ _
  rw [vocabList] at henum ⊢
  rw [henum, List.map_append]
  rw [dictOfPairs_append_of_some _ _ k (4 + j)
    (by rw [show START_VOCAB.length = 4 from rfl]; exact hdict)]
  rw [hvj, Nat.add_comm]

lemma vocabList_no_newline (w2id : List (List Char × Nat))
    (htok : ∀ p ∈ w2id, '\n' ∉ p.1) :
    ∀ l ∈ vocabList w2id, '\n' ∉ l := by
  intro l hl
  rcases List.mem_append.mp hl with hl | hl
  · simp only [START_VOCAB, List.mem_cons, List.mem_singleton] at hl
    rcases hl with rfl | rfl | rfl | rfl | h
    · decide
    · decide
    · decide
    · decide
    · simp at h
  · rcases List.mem_map.mp hl with ⟨p, hp, rfl⟩
    exact htok p ((sortPairs_perm w2id).mem_iff.mp hp)

lemma vocabList_strip_inv (w2id : List (List Char × Nat))
    (hstr : ∀ p ∈ w2id, pyStrip p.1 = p.1) :
    ∀ l ∈ vocabList w2id, pyStrip l = l := by
  intro l hl
  rcases List.mem_append.mp hl with hl | hl
  · simp only [START_VOCAB, List.mem_cons, List.mem_singleton] at hl
    rcases hl with rfl | rfl | rfl | rfl | h
    · decide
    · decide
    · decide
    · decide
    · simp at h
  · rcases List.mem_map.mp hl with ⟨p, hp, rfl⟩
    exact hstr p ((sortPairs_perm w2id).mem_iff.mp hp)

lemma rev_vocab_of_created (w2id : List (List Char × Nat))
    (hnl : ∀ l ∈ vocabList w2id, '\n' ∉ l)
    (hstr : ∀ l ∈ vocabList w2id, pyStrip l = l) :
    (pyFileLines (unlinesPy (vocabList w2id))).map pyStrip = vocabList w2id := by
  rw [pyFileLines_unlinesPy _ hnl, List.map_map]
  have h1 : ∀ l ∈ vocabList w2id, (pyStrip ∘ (· ++ ['\n'])) l = id l := by
    intro l hl
    show pyStrip (l ++ ['\n']) = l
    rw [pyStrip_append_space l '\n' (by decide), hstr l hl]
  rw [List.map_congr_left h1, List.map_id]

/-- C1, corrected form: building the vocabulary from a w2id mapping whose
ids are exactly 0..n-1 (each exactly once) and whose tokens contain no
newline and are strip-invariant, then loading the resulting file, yields a
mapping that sends each token of w2id to its original id shifted by 4. -/
theorem C1_round_trip_amended (fs : FS) (vocabulary_path : List Char)
    (w2id : List (List Char × Nat))
    (hk : (w2id.map Prod.fst).Nodup)
    (hids : List.Perm (w2id.map Prod.snd) (List.range w2id.length))
    (hnl : ∀ p ∈ w2id, '\n' ∉ p.1)
    (hstr : ∀ p ∈ w2id, pyStrip p.1 = p.1)
    (habs : fs vocabulary_path = none) :
    ∃ d rev, initialize_vocabulary (create_vocabulary fs vocabulary_path w2id)
        vocabulary_path = .ok (d, rev) ∧
      ∀ p ∈ w2id, d p.1 = some (p.2 + 4) := by
  have hcv : create_vocabulary fs vocabulary_path w2id =
      fsWrite fs vocabulary_path (unlinesPy (vocabList w2id)) := by
    simp [create_vocabulary, habs]
  refine ⟨(vocabOfContent (unlinesPy (vocabList w2id))).1,
    (vocabOfContent (unlinesPy (vocabList w2id))).2, ?_, ?_⟩
  · rw [hcv]
    simp [initialize_vocabulary, fsWrite_self]
  · intro p hp
    obtain ⟨k, v⟩ := p
    have hrev : (pyFileLines (unlinesPy (vocabList w2id))).map pyStrip = vocabList w2id :=
      rev_vocab_of_created w2id (vocabList_no_newline w2id hnl) (vocabList_strip_inv w2id hstr)
    show dictOfPairs
      ((((pyFileLines (unlinesPy (vocabList w2id))).map pyStrip).enum).map Prod.swap) k
        = some (v + 4)
    rw [hrev]
    exact roundtrip_dict w2id hk hids k v hp

/-- Witness for C1_round_trip_amended at the concrete one-token mapping
sending token a to id 0, in an empty filesystem. -/
theorem C1_round_trip_witness :
    ((([("a".toList, 0)] : List (List Char × Nat)).map Prod.fst).Nodup ∧
      List.Perm (([("a".toList, 0)] : List (List Char × Nat)).map Prod.snd)
        (List.range ([("a".toList, 0)] : List (List Char × Nat)).length)) ∧
    (∃ d rev, initialize_vocabulary
        (create_vocabulary (fun _ => none) "v".toList [("a".toList, 0)]) "v".toList
          = .ok (d, rev) ∧
      ∀ p ∈ ([("a".toList, 0)] : List (List Char × Nat)), d p.1 = some (p.2 + 4)) :=
  ⟨⟨by decide, by decide⟩,
    C1_round_trip_amended (fun _ => none) "v".toList [("a".toList, 0)]
      (by decide) (by decide) (by decide) (by decide) rfl⟩

/-- C1 counterexample: for the w2id mapping sending token a to id 1, the
claim as stated asks the built-then-loaded mapping to send a to 1 + 4 = 5,
but the code sends a to 4 (a ends up on line 4 regardless of its id). -/
theorem C1_round_trip_counterexample :
    ¬ ∀ d rev, initialize_vocabulary
        (create_vocabulary (fun _ => none) "v".toList [("a".toList, 1)]) "v".toList
          = .ok (d, rev) →
        ∀ p ∈ ([("a".toList, 1)] : List (List Char × Nat)), d p.1 = some (p.2 + 4) := by
  intro h
  have h2 := h (vocabOfContent (unlinesPy (vocabList [("a".toList, 1)]))).1
    (vocabOfContent (unlinesPy (vocabList [("a".toList, 1)]))).2 rfl
    ("a".toList, 1) (by decide)
  exact absurd h2 (by decide)

/-! Claims about the corpus splitter and the encoder. -/

lemma newline_not_mem_removeNl (s : List Char) : '\n' ∉ removeNl s := by
  intro h
  rcases List.mem_filter.mp h with ⟨_, hdec⟩
  simp at hdec

/-- C2: for a valid parsed corpus of N records, when the two output files do
not already exist the splitter writes a src file and a targ file whose text
lines are, in order, exactly the newline-stripped q and a fields of the
records, hence exactly N lines each. -/
theorem C2_splitter (fs : FS) (directory jsonl_file : List Char)
    (records : List (List Char × List Char))
    (hs : fs (qaSrcPath directory jsonl_file) = none)
    (ht : fs (qaTargPath directory jsonl_file) = none) :
    ∃ sc tc,
      (get_qa_set fs directory jsonl_file records).1 (qaSrcPath directory jsonl_file)
        = some sc ∧
      (get_qa_set fs directory jsonl_file records).1 (qaTargPath directory jsonl_file)
        = some tc ∧
      textLines sc = records.map (fun r => removeNl r.1) ∧
      textLines tc = records.map (fun r => removeNl r.2) ∧
      (textLines sc).length = records.length ∧
      (textLines tc).length = records.length := by
  have hbr : get_qa_set fs directory jsonl_file records =
      (fsWrite (fsWrite fs (qaSrcPath directory jsonl_file)
          (unlinesPy (records.map fun r => removeNl r.1)))
        (qaTargPath directory jsonl_file)
          (unlinesPy (records.map fun r => removeNl r.2)),
        qaSetPath directory jsonl_file) := by
    simp [get_qa_set, hs]
  have hlines1 : textLines (unlinesPy (records.map fun r => removeNl r.1))
      = records.map fun r => removeNl r.1 := by
    refine textLines_unlinesPy _ ?_
    intro l hl
    rcases List.mem_map.mp hl with ⟨r, _, rfl⟩
    exact newline_not_mem_removeNl _
  have hlines2 : textLines (unlinesPy (records.map fun r => removeNl r.2))
      = records.map fun r => removeNl r.2 := by
    refine textLines_unlinesPy _ ?_
    intro l hl
    rcases List.mem_map.mp hl with ⟨r, _, rfl⟩
    exact newline_not_mem_removeNl _
  refine ⟨unlinesPy (records.map fun r => removeNl r.1),
    unlinesPy (records.map fun r => removeNl r.2), ?_, ?_, hlines1, hlines2, ?_, ?_⟩
  · rw [hbr]
    exact (fsWrite_other _ _ _ _ (qaSrc_ne_qaTarg directory jsonl_file)).trans
      (fsWrite_self _ _ _)
  · rw [hbr]
    exact fsWrite_self _ _ _
  · rw [hlines1, List.length_map]
  · rw [hlines2, List.length_map]

/-- Witness for C2_splitter at the spec example record (q is hi with a
trailing newline, a is hello) in an empty filesystem. -/
theorem C2_splitter_witness :
    ((fun _ => none : FS) (qaSrcPath "d".toList "c.jsonl".toList) = none ∧
      (fun _ => none : FS) (qaTargPath "d".toList "c.jsonl".toList) = none) ∧
    (∃ sc tc,
      (get_qa_set (fun _ => none) "d".toList "c.jsonl".toList
          [("hi\n".toList, "hello".toList)]).1 (qaSrcPath "d".toList "c.jsonl".toList)
        = some sc ∧
      (get_qa_set (fun _ => none) "d".toList "c.jsonl".toList
          [("hi\n".toList, "hello".toList)]).1 (qaTargPath "d".toList "c.jsonl".toList)
        = some tc ∧
      textLines sc = [("hi\n".toList, "hello".toList)].map (fun r => removeNl r.1) ∧
      textLines tc = [("hi\n".toList, "hello".toList)].map (fun r => removeNl r.2) ∧
      (textLines sc).length = [("hi\n".toList, "hello".toList)].length ∧
      (textLines tc).length = [("hi\n".toList, "hello".toList)].length) :=
  ⟨⟨rfl, rfl⟩, C2_splitter (fun _ => none) "d".toList "c.jsonl".toList
    [("hi\n".toList, "hello".toList)] rfl rfl⟩

/-- C3: the encoder returns one id per whitespace token of the trimmed
sentence, in order, each token mapped through the vocabulary with the fixed
unknown id 3 as the default; on the example six-line vocabulary, encoding
the text hello world foo yields the ids 4, 5, 3. -/
theorem C3_encoder (s : List Char) (vocab : List Char → Option Nat) :
    (sentence_to_token_ids s vocab).length = (pySplit (pyStrip s)).length ∧
    (∀ i, i < (pySplit (pyStrip s)).length →
      (sentence_to_token_ids s vocab).getD i 0
        = (vocab ((pySplit (pyStrip s)).getD i [])).getD 3) ∧
    sentence_to_token_ids "hello world foo".toList
      (vocabOfContent "_PAD\n_GO\n_EOS\n_UNK\nhello\nworld\n".toList).1 = [4, 5, 3] := by
  refine ⟨by simp [sentence_to_token_ids], ?_, by decide⟩
  intro i hi
  have ht : (pySplit (pyStrip s))[i]? = some ((pySplit (pyStrip s))[i]) :=
    List.getElem?_eq_getElem hi
  simp [sentence_to_token_ids, List.getD_eq_getElem?_getD, List.getElem?_map, ht, UNK_ID]

/-- Witness for C3_encoder: its pointwise part applied at index 0 of the
two-token sentence a b with an empty vocabulary. -/
theorem C3_encoder_witness :
    0 < (pySplit (pyStrip "a b".toList)).length ∧
    (sentence_to_token_ids "a b".toList (fun _ => none)).getD 0 0
      = ((fun _ => none : List Char → Option Nat)
          ((pySplit (pyStrip "a b".toList)).getD 0 [])).getD 3 :=
  ⟨by decide, (C3_encoder "a b".toList (fun _ => none)).2.1 0 (by decide)⟩

/-! Claims about the dataset id-materializer. -/

lemma dtti_spec (fs : FS) (dp tp vp : List Char) (data vc : List Char)
    (hT : fs tp = none) (hV : fs vp = some vc) (hD : fs dp = some data) :
    data_to_token_ids fs dp tp vp = .ok (fsWrite fs tp
      (unlinesPy ((pyFileLines data).map fun line =>
        joinWithSpace ((sentence_to_token_ids line (vocabOfContent vc).1).map natToChars)))) := by
  simp [data_to_token_ids, initialize_vocabulary, hT, hV, hD]

lemma dtti_out_lines (data : List Char) (v : List Char → Option Nat) :
    textLines (unlinesPy ((pyFileLines data).map fun line =>
        joinWithSpace ((sentence_to_token_ids line v).map natToChars)))
      = (textLines data).map fun line =>
          joinWithSpace ((sentence_to_token_ids line v).map natToChars) := by
  have hnl : ∀ l ∈ (pyFileLines data).map (fun line =>
      joinWithSpace ((sentence_to_token_ids line v).map natToChars)), '\n' ∉ l := by
    intro l hl
    rcases List.mem_map.mp hl with ⟨line, _, rfl⟩
    exact rendered_line_no_newline _
  rw [textLines_unlinesPy _ hnl]
  refine map_congr_forall2 (pyFileLines_rel_textLines data) ?_
  intro a b hab
  rcases hab with hab | hab
  · subst hab
    simp [sentence_ids_append_newline]
  · subst hab
    rfl

/-- C4: when the target file is absent and the vocabulary and data files
exist, the materializer succeeds and writes a target file with exactly one
text line per input text line, line i being the encoder output for input
line i rendered as space-separated decimal integers. -/
theorem C4_materializer (fs : FS) (dp tp vp data vc : List Char)
    (hT : fs tp = none) (hV : fs vp = some vc) (hD : fs dp = some data) :
    ∃ fs2 out, data_to_token_ids fs dp tp vp = .ok fs2 ∧ fs2 tp = some out ∧
      textLines out = (textLines data).map (fun line =>
        joinWithSpace ((sentence_to_token_ids line (vocabOfContent vc).1).map natToChars)) ∧
      (textLines out).length = (textLines data).length := by
  refine ⟨_, _, dtti_spec fs dp tp vp data vc hT hV hD, fsWrite_self _ _ _, ?_, ?_⟩
  · exact dtti_out_lines data (vocabOfContent vc).1
  · rw [dtti_out_lines data (vocabOfContent vc).1, List.length_map]

/-- Witness for C4_materializer at a one-line data file x and the one-token
vocabulary file x, in a filesystem holding just those two files. -/
theorem C4_materializer_witness :
    ((fun p => if p = "d".toList then some "x\n".toList
        else if p = "v".toList then some "x\n".toList else none : FS) "t".toList = none ∧
      (fun p => if p = "d".toList then some "x\n".toList
        else if p = "v".toList then some "x\n".toList else none : FS) "v".toList
          = some "x\n".toList ∧
      (fun p => if p = "d".toList then some "x\n".toList
        else if p = "v".toList then some "x\n".toList else none : FS) "d".toList
          = some "x\n".toList) ∧
    (∃ fs2 out, data_to_token_ids
        (fun p => if p = "d".toList then some "x\n".toList
          else if p = "v".toList then some "x\n".toList else none)
        "d".toList "t".toList "v".toList = .ok fs2 ∧ fs2 "t".toList = some out ∧
      textLines out = (textLines "x\n".toList).map (fun line =>
        joinWithSpace ((sentence_to_token_ids line
          (vocabOfContent "x\n".toList).1).map natToChars)) ∧
      (textLines out).length = (textLines "x\n".toList).length) :=
  ⟨⟨by decide, by decide, by decide⟩,
    C4_materializer _ "d".toList "t".toList "v".toList "x\n".toList "x\n".toList
      (by decide) (by decide) (by decide)⟩

/-- C10: the encoder yields the empty id list on any all-whitespace (hence
also empty) sentence, and the materializer writes an empty line for every
blank input line while preserving the line count. -/
theorem C10_blank_lines (v : List Char → Option Nat) (s : List Char)
    (hws : ∀ c ∈ s, isPySpace c)
    (fs : FS) (dp tp vp data vc : List Char)
    (hT : fs tp = none) (hV : fs vp = some vc) (hD : fs dp = some data) :
    sentence_to_token_ids s v = [] ∧
    ∃ fs2 out, data_to_token_ids fs dp tp vp = .ok fs2 ∧ fs2 tp = some out ∧
      (textLines out).length = (textLines data).length ∧
      ∀ i, i < (textLines data).length →
        (∀ c ∈ (textLines data).getD i [], isPySpace c) →
        (textLines out).getD i [] = [] := by
  refine ⟨sentence_ids_all_space s v hws, _, _,
    dtti_spec fs dp tp vp data vc hT hV hD, fsWrite_self _ _ _, ?_, ?_⟩
  · rw [dtti_out_lines data (vocabOfContent vc).1, List.length_map]
  · intro i hi hblank
    rw [dtti_out_lines data (vocabOfContent vc).1]
    have ht : (textLines data)[i]? = some ((textLines data)[i]) :=
      List.getElem?_eq_getElem hi
    have hb2 : ∀ c ∈ (textLines data)[i], isPySpace c := by
      have hgd : (textLines data).getD i [] = (textLines data)[i] := by
        simp [List.getD_eq_getElem?_getD, ht]
      rwa [hgd] at hblank
    simp only [List.getD_eq_getElem?_getD, List.getElem?_map, ht, Option.map_some',
      Option.getD_some]
    rw [sentence_ids_all_space _ _ hb2]
    rfl

/-- Witness for C10_blank_lines: a whitespace-only sentence, and a data
file consisting of one blank line. -/
theorem C10_blank_lines_witness :
    ((∀ c ∈ " ".toList, isPySpace c) ∧
      (fun p => if p = "d".toList then some "\n".toList
        else if p = "v".toList then some "x\n".toList else none : FS) "t".toList = none ∧
      (fun p => if p = "d".toList then some "\n".toList
        else if p = "v".toList then some "x\n".toList else none : FS) "v".toList
          = some "x\n".toList ∧
      (fun p => if p = "d".toList then some "\n".toList
        else if p = "v".toList then some "x\n".toList else none : FS) "d".toList
          = some "\n".toList) ∧
    (sentence_to_token_ids " ".toList (fun _ => none) = [] ∧
    ∃ fs2 out, data_to_token_ids
        (fun p => if p = "d".toList then some "\n".toList
          else if p = "v".toList then some "x\n".toList else none)
        "d".toList "t".toList "v".toList = .ok fs2 ∧ fs2 "t".toList = some out ∧
      (textLines out).length = (textLines "\n".toList).length ∧
      ∀ i, i < (textLines "\n".toList).length →
        (∀ c ∈ (textLines "\n".toList).getD i [], isPySpace c) →
        (textLines out).getD i [] = []) :=
  ⟨⟨by decide, by decide, by decide, by decide⟩,
    C10_blank_lines (fun _ => none) " ".toList (by decide) _
      "d".toList "t".toList "v".toList "\n".toList "x\n".toList
      (by decide) (by decide) (by decide)⟩

/-! Claims about the vocabulary builder output and the loader. -/

/-- C5, corrected form: when every token of w2id is newline-free and the
target file is absent, the builder writes a file whose text lines are
exactly the four reserved tokens followed by the keys of w2id in ascending
order of their mapped id values (one token per line, line number = id). -/
theorem C5_builder_amended (fs : FS) (vocabulary_path : List Char)
    (w2id : List (List Char × Nat))
    (hnl : ∀ p ∈ w2id, '\n' ∉ p.1)
    (habs : fs vocabulary_path = none) :
    ∃ c q, create_vocabulary fs vocabulary_path w2id vocabulary_path = some c ∧
      List.Perm q w2id ∧ List.Sorted (· ≤ ·) (q.map Prod.snd) ∧
      textLines c = START_VOCAB ++ q.map Prod.fst := by
  refine ⟨unlinesPy (vocabList w2id), sortPairs w2id, ?_, sortPairs_perm w2id,
    List.pairwise_map.mpr (sortPairs_sorted w2id), ?_⟩
  · simp [create_vocabulary, habs, fsWrite_self]
  · exact textLines_unlinesPy _ (vocabList_no_newline w2id hnl)

/-- Witness for C5_builder_amended at the one-token mapping sending b to
id 0, in an empty filesystem. -/
theorem C5_builder_witness :
    ((∀ p ∈ ([("b".toList, 0)] : List (List Char × Nat)), '\n' ∉ p.1) ∧
      (fun _ => none : FS) "v".toList = none) ∧
    (∃ c q, create_vocabulary (fun _ => none) "v".toList [("b".toList, 0)] "v".toList
        = some c ∧
      List.Perm q [("b".toList, 0)] ∧ List.Sorted (· ≤ ·) (q.map Prod.snd) ∧
      textLines c = START_VOCAB ++ q.map Prod.fst) :=
  ⟨⟨by decide, rfl⟩,
    C5_builder_amended (fun _ => none) "v".toList [("b".toList, 0)] (by decide) rfl⟩

/-- C5 counterexample: a token containing a newline spans two lines of the
written file, so the file lines are not the reserved tokens followed by the
w2id keys. -/
theorem C5_builder_counterexample :
    create_vocabulary (fun _ => none) "v".toList [("a\nb".toList, 0)] "v".toList
        = some (unlinesPy (vocabList [("a\nb".toList, 0)])) ∧
    textLines (unlinesPy (vocabList [("a\nb".toList, 0)]))
      ≠ START_VOCAB ++ [("a\nb".toList, 0)].map Prod.fst :=
  ⟨rfl, by decide⟩

/-- C6, corrected form: for an existing vocabulary file whose lines are
pairwise distinct after stripping leading and trailing whitespace, the
loader returns the ordered list of the file lines each stripped of leading
and trailing whitespace, and a mapping sending the i-th list element to i,
for every index. -/
theorem C6_loader_amended (fs : FS) (path content : List Char)
    (hsome : fs path = some content)
    (hnd : ((pyFileLines content).map pyStrip).Nodup) :
    ∃ d rev, initialize_vocabulary fs path = .ok (d, rev) ∧
      rev = (pyFileLines content).map pyStrip ∧
      ∀ i (hi : i < rev.length), d (rev.get ⟨i, hi⟩) = some i := by
  refine ⟨(vocabOfContent content).1, (vocabOfContent content).2, ?_, rfl, ?_⟩
  · simp [initialize_vocabulary, hsome]
  · intro i hi
    show dictOfPairs ((((pyFileLines content).map pyStrip).enum).map Prod.swap)
        (((pyFileLines content).map pyStrip).get ⟨i, hi⟩) = some i
    have h0 := dictOfPairs_enumFrom_get ((pyFileLines content).map pyStrip) 0 i hnd hi
    simpa [List.enum] using h0

/-- Witness for C6_loader_amended at a two-line vocabulary file holding the
distinct tokens a and b. -/
theorem C6_loader_witness :
    ((fun _ => some "a\nb\n".toList : FS) "p".toList = some "a\nb\n".toList ∧
      ((pyFileLines "a\nb\n".toList).map pyStrip).Nodup) ∧
    (∃ d rev, initialize_vocabulary (fun _ => some "a\nb\n".toList) "p".toList
        = .ok (d, rev) ∧
      rev = (pyFileLines "a\nb\n".toList).map pyStrip ∧
      ∀ i (hi : i < rev.length), d (rev.get ⟨i, hi⟩) = some i) :=
  ⟨⟨rfl, by decide⟩,
    C6_loader_amended (fun _ => some "a\nb\n".toList) "p".toList "a\nb\n".toList
      rfl (by decide)⟩

/-- C6 counterexample: on the existing vocabulary file whose two lines are
a-with-a-leading-space and a, both parts of the claim fail: the loader
strips both ends of each line, so the returned list is not the list of
trailing-stripped lines, and the two lines collapse to the duplicate token
a, whose mapping value is the later index 1, not 0. -/
theorem C6_loader_counterexample :
    (¬ ∀ d rev, initialize_vocabulary (fun _ => some " a\na\n".toList) "p".toList
        = .ok (d, rev) →
      rev = (pyFileLines " a\na\n".toList).map rstripPy) ∧
    (¬ ∀ d rev, initialize_vocabulary (fun _ => some " a\na\n".toList) "p".toList
        = .ok (d, rev) →
      ∀ i (hi : i < rev.length), d (rev.get ⟨i, hi⟩) = some i) := by
  constructor
  · intro h
    have h2 := h (vocabOfContent " a\na\n".toList).1
      (vocabOfContent " a\na\n".toList).2 rfl
    exact absurd h2 (by decide)
  · intro h
    have h2 := h (vocabOfContent " a\na\n".toList).1
      (vocabOfContent " a\na\n".toList).2 rfl 0 (by decide)
    exact absurd h2 (by decide)

/-! Claim about idempotence through the existence markers. -/

/-- C7: a second invocation of the splitter, the vocabulary builder, or the
materializer, on the state left by a first invocation, performs no
filesystem writes; the splitter still returns the shared path stem. -/
theorem C7_idempotence (fs : FS) (directory jsonl_file : List Char)
    (records : List (List Char × List Char)) (vp : List Char)
    (w2id : List (List Char × Nat)) (dp tp vcp : List Char) :
    get_qa_set (get_qa_set fs directory jsonl_file records).1 directory jsonl_file records
        = ((get_qa_set fs directory jsonl_file records).1, qaSetPath directory jsonl_file) ∧
    create_vocabulary (create_vocabulary fs vp w2id) vp w2id
        = create_vocabulary fs vp w2id ∧
    (∀ fs2, data_to_token_ids fs dp tp vcp = .ok fs2 →
      data_to_token_ids fs2 dp tp vcp = .ok fs2) := by
  refine ⟨?_, ?_, ?_⟩
  · by_cases hb : ((fs (qaSrcPath directory jsonl_file)).isSome
        && (fs (qaTargPath directory jsonl_file)).isSome) = true
    · simp [get_qa_set, hb]
    · simp only [Bool.not_eq_true] at hb
      have hsrc : (fsWrite (fsWrite fs (qaSrcPath directory jsonl_file)
          (unlinesPy (records.map fun r => removeNl r.1)))
          (qaTargPath directory jsonl_file)
          (unlinesPy (records.map fun r => removeNl r.2)))
            (qaSrcPath directory jsonl_file)
          = some (unlinesPy (records.map fun r => removeNl r.1)) :=
        (fsWrite_other _ _ _ _ (qaSrc_ne_qaTarg directory jsonl_file)).trans
          (fsWrite_self _ _ _)
      simp [get_qa_set, hb, hsrc, fsWrite_self]
  · by_cases hv : ((fs vp).isSome) = true
    · simp [create_vocabulary, hv]
    · simp only [Bool.not_eq_true] at hv
      simp [create_vocabulary, hv, fsWrite_self]
  · intro fs2 h
    by_cases htp : ((fs tp).isSome) = true
    · simp only [data_to_token_ids, htp, if_true, Except.ok.injEq] at h
      subst h
      simp [data_to_token_ids, htp]
    · simp only [Bool.not_eq_true] at htp
      cases hvc : fs vcp with
      | none =>
        simp [data_to_token_ids, initialize_vocabulary, htp, hvc] at h
      | some vc =>
        cases hdp : fs dp with
        | none =>
          simp [data_to_token_ids, initialize_vocabulary, htp, hvc, hdp] at h
        | some data =>
          simp only [data_to_token_ids, initialize_vocabulary, htp, hvc, hdp,
            Option.isSome_none, Bool.false_eq_true, if_false, Except.ok.injEq] at h
          subst h
          simp [data_to_token_ids, fsWrite_self]

/-- Witness for C7_idempotence: its materializer conjunct applied in a
filesystem holding a data file and a vocabulary file but no target file. -/
theorem C7_idempotence_witness :
    data_to_token_ids
        (fun p => if p = "d".toList then some "x\n".toList
          else if p = "v".toList then some "x\n".toList else none)
        "d".toList "t".toList "v".toList
      = .ok (fsWrite
          (fun p => if p = "d".toList then some "x\n".toList
            else if p = "v".toList then some "x\n".toList else none)
          "t".toList "0\n".toList) ∧
    data_to_token_ids
        (fsWrite
          (fun p => if p = "d".toList then some "x\n".toList
            else if p = "v".toList then some "x\n".toList else none)
          "t".toList "0\n".toList)
        "d".toList "t".toList "v".toList
      = .ok (fsWrite
          (fun p => if p = "d".toList then some "x\n".toList
            else if p = "v".toList then some "x\n".toList else none)
          "t".toList "0\n".toList) :=
  ⟨rfl,
    (C7_idempotence
      (fun p => if p = "d".toList then some "x\n".toList
        else if p = "v".toList then some "x\n".toList else none)
      [] [] [] [] [] "d".toList "t".toList "v".toList).2.2 _ rfl⟩

/-! Claim about the loader error behaviour. -/

/-- C8: the loader fails exactly when the vocabulary file path is absent,
and on an existing file returns the two structures without error. -/
theorem C8_loader_error_iff (fs : FS) (path : List Char) :
    ((∃ e, initialize_vocabulary fs path = .error e) ↔ fs path = none) ∧
    (∀ c, fs path = some c → initialize_vocabulary fs path = .ok (vocabOfContent c)) := by
  constructor
  · constructor
    · rintro ⟨e, he⟩
      cases hc : fs path with
      | none => rfl
      | some c => simp [initialize_vocabulary, hc] at he
    · intro h
      exact ⟨(), by simp [initialize_vocabulary, h]⟩
  · intro c h
    simp [initialize_vocabulary, h]

/-- Witness for C8_loader_error_iff: the error direction in an empty
filesystem and the success direction on a one-line file. -/
theorem C8_loader_witness :
    ((∃ e, initialize_vocabulary (fun _ => none : FS) "p".toList = .error e) ↔
      (fun _ => none : FS) "p".toList = none) ∧
    ((fun _ => some "a\n".toList : FS) "p".toList = some "a\n".toList ∧
      initialize_vocabulary (fun _ => some "a\n".toList) "p".toList
        = .ok (vocabOfContent "a\n".toList)) :=
  ⟨(C8_loader_error_iff (fun _ => none) "p".toList).1,
    ⟨rfl, (C8_loader_error_iff (fun _ => some "a\n".toList) "p".toList).2
      "a\n".toList rfl⟩⟩

/-! Claim about the stub /talk handler. -/

/-- C9: a GET request to /talk with no userInput parameter on the stub
service yields the JSON object with result field equal to the default text
no input :O followed by the fixed suffix from server. -/
theorem C9_stub_talk_default :
    stub_talk_response none = ("result".toList, "no input :O from server".toList) := rfl
